import Mathlib

/-!
Shallow embedding of the snake game core from `src/main.rs` (bevy_snake).
The Bevy ECS world is modelled as a `World` record: the ordered segment
entity list becomes a head-first list of positions, the `SnakeHead`
component's direction a field, `Food` entities a list of positions, the
`LastTailPosition` resource an `Option Position`, and the two one-shot
event queues (`GrowthEvent`, `GameOverEvent`) counters of pending events.
Each Bevy system becomes a function on `World`; a system that would panic
on a Rust `unwrap` returns `none`.
-/

namespace Snake

/-- Arena width constant `ARENA_WIDTH` from the source (30). -/
def ARENA_WIDTH : Int := 30

/-- Arena height constant `ARENA_HEIGHT` from the source (30). -/
def ARENA_HEIGHT : Int := 30

/-- The `Direction` enum from the source. -/
inductive Direction where
  | Left
  | Up
  | Right
  | Down
deriving DecidableEq, Repr

/-- `Direction::opposite` from the source. -/
def Direction.opposite : Direction → Direction
  | .Left => .Right
  | .Up => .Down
  | .Right => .Left
  | .Down => .Up

/-- The `Position` component: an (x, y) pair of `i32` grid coordinates. -/
structure Position where
  x : Int
  y : Int
deriving DecidableEq, Repr

/-- Per-frame snapshot of the four directional keys read by
`snake_movement_input` via `keyboard_input.pressed`. -/
structure KeyboardInput where
  left : Bool
  right : Bool
  down : Bool
  up : Bool
deriving DecidableEq, Repr

/-- The `dir` computation in `snake_movement_input`: the if/else-if chain
over `pressed(Left)`, `pressed(Right)`, `pressed(Down)`, `pressed(Up)`,
falling back to the head's current direction. -/
def requestedDirection (keys : KeyboardInput) (current : Direction) : Direction :=
  if keys.left then .Left
  else if keys.right then .Right
  else if keys.down then .Down
  else if keys.up then .Up
  else current

/-- The whole `snake_movement_input` system: computes the requested
direction and writes it to the head unless it is the opposite of the
current direction. Returns the head's resulting direction. -/
def snakeMovementInput (keys : KeyboardInput) (current : Direction) : Direction :=
  let dir := requestedDirection keys current
  if dir ≠ current.opposite then dir else current

/-- The ECS world state relevant to the claims: ordered segment positions
(head first, mirroring the `SnakeSegments` entity list dereferenced through
the `Position` query), the head's direction, food entity positions, the
`LastTailPosition` resource, and pending event counts for the `GrowthEvent`
and `GameOverEvent` queues. -/
structure World where
  segments : List Position
  direction : Direction
  foods : List Position
  lastTail : Option Position
  growthEvents : Nat
  gameOverEvents : Nat
deriving DecidableEq, Repr

/-- The one-unit step applied to the head position in `snake_movement`:
Left decrements x, Right increments x, Down decrements y, Up increments y. -/
def stepPosition (dir : Direction) (p : Position) : Position :=
  match dir with
  | .Left => { p with x := p.x - 1 }
  | .Right => { p with x := p.x + 1 }
  | .Down => { p with y := p.y - 1 }
  | .Up => { p with y := p.y + 1 }

/-- The game-over condition tested in `snake_movement`: the new head
position is out of the arena or contained in the pre-move segment
snapshot. (`head_position.x as u32 >= ARENA_WIDTH` on an `i32` is
equivalent to `x < 0 ∨ x ≥ 30`, and `x < 0` is already the first
disjunct, so the cast is modelled as the plain comparison.) -/
def collides (newHead : Position) (snapshot : List Position) : Bool :=
  newHead.x < 0 || newHead.y < 0 ||
    ARENA_WIDTH ≤ newHead.x || ARENA_HEIGHT ≤ newHead.y ||
    snapshot.contains newHead

/-- The `snake_movement` system. `segment_positions` is the pre-move
snapshot of all segment positions (head first). The head is stepped one
unit in its direction; a `GameOverEvent` is sent when `collides` holds;
each trailing segment (from `segments.iter().skip(1)`) receives the
pre-move position of the segment ahead of it; and `LastTailPosition`
records the pre-move tail position. `head.single()` and the
`last().unwrap()` panic when there is no segment, modelled as `none`. -/
def snakeMovementSys (w : World) : Option World :=
  match w.segments with
  | [] => none
  | headPos :: rest =>
    let snapshot := headPos :: rest
    let newHead := stepPosition w.direction headPos
    let hit := collides newHead snapshot
    some { w with
      segments := newHead :: snapshot.take rest.length
      lastTail := some (snapshot.getLast (by simp))
      gameOverEvents := w.gameOverEvents + (if hit then 1 else 0) }

/-- The `snake_eating` system: for every food entity whose position equals
the head position, despawn it and send a `GrowthEvent`. The head query
`head_position.single()` panics with no head, modelled as `none`. -/
def snakeEatingSys (w : World) : Option World :=
  match w.segments with
  | [] => none
  | headPos :: _ =>
    some { w with
      foods := w.foods.filter (fun f => !(f == headPos))
      growthEvents := w.growthEvents + (w.foods.filter (fun f => f == headPos)).length }

/-- The `snake_growth` system: `growth_reader.iter().next()` observes the
first pending `GrowthEvent` (consuming exactly one); if one exists, a new
segment is appended at `last_tail_position.0.unwrap()`, which panics when
the resource holds `none` (modelled as `none`). -/
def snakeGrowthSys (w : World) : Option World :=
  if 1 ≤ w.growthEvents then
    match w.lastTail with
    | none => none
    | some p =>
      some { w with
        segments := w.segments ++ [p]
        growthEvents := w.growthEvents - 1 }
  else
    some w

/-- The `spawn_snake` startup/reset procedure: replaces the segment list
with a head at (3, 3) carrying `SnakeHead { direction: Direction::Right }`
and one body segment at (3, 2). -/
def spawnSnake (w : World) : World :=
  { w with
    segments := [{ x := 3, y := 3 }, { x := 3, y := 2 }]
    direction := .Right }

/-- The `game_over` system: on the first pending `GameOverEvent`, despawn
every `Food` and every `SnakeSegment` entity and re-run `spawn_snake`. -/
def gameOverSys (w : World) : World :=
  if 1 ≤ w.gameOverEvents then
    spawnSnake { w with
      foods := []
      segments := []
      gameOverEvents := w.gameOverEvents - 1 }
  else
    w

/-- The `food_spawner` system: spawns one `Food` entity at
`((fastrand::f32() * 30.) as i32, (fastrand::f32() * 30.) as i32)`.
The two random draws are modelled as rationals `r1`, `r2` supplied by the
caller, each meant to lie in [0, 1) as `fastrand::f32` guarantees; the
cast truncates toward zero, which on a nonnegative value is the floor. -/
def foodSpawnerSys (r1 r2 : ℚ) (w : World) : World :=
  { w with
    foods := w.foods ++ [{ x := ⌊r1 * 30⌋, y := ⌊r2 * 30⌋ }] }

/-- The per-frame systems of the main `Update` stage whose relative order
is constrained in `main`. -/
inductive Sys where
  | movementInputSys
  | movementSys
  | eatingSys
  | growthSys
  | gameOverCheckSys
deriving DecidableEq, Repr

/-- The ordering constraints declared in `main`:
`snake_movement_input.before(snake_movement)`,
`game_over.after(snake_movement)`,
`snake_eating.after(snake_movement)`, and
`snake_growth.after(snake_eating)`. No other pair is constrained. -/
def declaredBefore : Sys → Sys → Bool
  | .movementInputSys, .movementSys => true
  | .movementSys, .eatingSys => true
  | .eatingSys, .growthSys => true
  | .movementSys, .gameOverCheckSys => true
  | _, _ => false

/-- All five systems of the modelled stage. -/
def allSys : List Sys :=
  [.movementInputSys, .movementSys, .eatingSys, .growthSys, .gameOverCheckSys]

/-- System `a` runs before system `b` under the schedule `l`. -/
def schedulesBefore (l : List Sys) (a b : Sys) : Prop :=
  l.indexOf a < l.indexOf b

/-- A frame execution order the Bevy scheduler may choose: a permutation
of the five systems satisfying every declared ordering constraint. -/
def validOrder (l : List Sys) : Prop :=
  l.Perm allSys ∧ ∀ a b, declaredBefore a b = true → schedulesBefore l a b

instance (l : List Sys) (a b : Sys) : Decidable (schedulesBefore l a b) := by
  unfold schedulesBefore
  infer_instance

instance : Fintype Sys :=
  ⟨⟨{.movementInputSys, .movementSys, .eatingSys, .growthSys, .gameOverCheckSys}, by decide⟩,
    by intro x; cases x <;> decide⟩

instance (l : List Sys) : Decidable (validOrder l) := by
  unfold validOrder
  infer_instance

/-- A concrete two-segment world (the initial spawn configuration with no
food) used to exercise the movement step on explicit inputs. -/
def exampleWorld : World :=
  { segments := [{ x := 3, y := 3 }, { x := 3, y := 2 }]
    direction := .Right
    foods := []
    lastTail := none
    growthEvents := 0
    gameOverEvents := 0 }

/-- The world `snakeMovementSys` produces from `exampleWorld`. -/
def exampleWorldMoved : World :=
  { segments := [{ x := 4, y := 3 }, { x := 3, y := 3 }]
    direction := .Right
    foods := []
    lastTail := some { x := 3, y := 2 }
    growthEvents := 0
    gameOverEvents := 0 }

/-- `exampleWorld` with one food entity directly in front of the head. -/
def eatWorld : World :=
  { exampleWorld with foods := [{ x := 4, y := 3 }] }

/-- The world `snakeMovementSys` produces from `eatWorld`. -/
def eatWorldMoved : World :=
  { segments := [{ x := 4, y := 3 }, { x := 3, y := 3 }]
    direction := .Right
    foods := [{ x := 4, y := 3 }]
    lastTail := some { x := 3, y := 2 }
    growthEvents := 0
    gameOverEvents := 0 }

/-- The world `snakeEatingSys` produces from `eatWorldMoved`. -/
def eatWorldEaten : World :=
  { eatWorldMoved with foods := [], growthEvents := 1 }

/-- A three-segment world with a pending game-over event and a leftover
food entity, used to exercise the reset. -/
def crashedWorld : World :=
  { segments := [{ x := 5, y := 5 }, { x := 5, y := 4 }, { x := 5, y := 3 }]
    direction := .Up
    foods := [{ x := 1, y := 1 }]
    lastTail := some { x := 5, y := 3 }
    growthEvents := 0
    gameOverEvents := 1 }

/-- A world with a pending growth event but no recorded tail position. -/
def staleWorld : World :=
  { exampleWorld with growthEvents := 1, lastTail := none }

/-- Unfolding lemma for `snakeMovementSys` on a nonempty segment list. -/
theorem snakeMovementSys_cons (w : World) (headPos : Position) (rest : List Position)
    (hw : w.segments = headPos :: rest) :
    snakeMovementSys w = some { w with
      segments := stepPosition w.direction headPos :: (headPos :: rest).take rest.length
      lastTail := some ((headPos :: rest).getLast (by simp))
      gameOverEvents := w.gameOverEvents +
        (if collides (stepPosition w.direction headPos) (headPos :: rest) then 1 else 0) } := by
  unfold snakeMovementSys
  rw [hw]

/-- Unfolding lemma for `snakeEatingSys` on a nonempty segment list. -/
theorem snakeEatingSys_cons (w : World) (headPos : Position) (rest : List Position)
    (hw : w.segments = headPos :: rest) :
    snakeEatingSys w = some { w with
      foods := w.foods.filter (fun f => !(f == headPos))
      growthEvents := w.growthEvents + (w.foods.filter (fun f => f == headPos)).length } := by
  unfold snakeEatingSys
  rw [hw]

/-- Claim C1: on a movement tick with a nonempty segment list, the head
moves exactly one unit in its direction (Left: x-1, Right: x+1, Up: y+1,
Down: y-1) and the resulting ordered segment sequence is the new head
position followed by the pre-move positions of segments 0..N-2. -/
theorem C1_movement_shift (w : World) (headPos : Position) (rest : List Position)
    (hw : w.segments = headPos :: rest) :
    ∃ w', snakeMovementSys w = some w' ∧
      w'.segments =
        (match w.direction with
          | Direction.Left => { x := headPos.x - 1, y := headPos.y }
          | Direction.Right => { x := headPos.x + 1, y := headPos.y }
          | Direction.Up => { x := headPos.x, y := headPos.y + 1 }
          | Direction.Down => { x := headPos.x, y := headPos.y - 1 }) ::
          w.segments.take (w.segments.length - 1) := by
  refine ⟨_, snakeMovementSys_cons w headPos rest hw, ?_⟩
  cases w.direction <;> simp [hw, stepPosition]

/-- Claim C1 witness: the movement step on `exampleWorld`. -/
theorem C1_movement_shift_witness :
    exampleWorld.segments =
      { x := 3, y := 3 } :: [{ x := 3, y := 2 }] ∧
    ∃ w', snakeMovementSys exampleWorld = some w' ∧
      w'.segments =
        (match exampleWorld.direction with
          | Direction.Left => { x := (3 : Int) - 1, y := 3 }
          | Direction.Right => { x := (3 : Int) + 1, y := 3 }
          | Direction.Up => { x := 3, y := (3 : Int) + 1 }
          | Direction.Down => { x := 3, y := (3 : Int) - 1 }) ::
          exampleWorld.segments.take (exampleWorld.segments.length - 1) :=
  ⟨rfl, C1_movement_shift exampleWorld { x := 3, y := 3 } [{ x := 3, y := 2 }] rfl⟩

/-- The boolean collision test agrees with the proposition "the new head
is outside [0, 30) × [0, 30) or lies in the snapshot". -/
theorem collides_iff (newHead : Position) (snapshot : List Position) :
    collides newHead snapshot = true ↔
      (¬ (0 ≤ newHead.x ∧ newHead.x < ARENA_WIDTH ∧
          0 ≤ newHead.y ∧ newHead.y < ARENA_HEIGHT) ∨
        newHead ∈ snapshot) := by
  simp only [collides, ARENA_WIDTH, ARENA_HEIGHT, Bool.or_eq_true, decide_eq_true_eq,
    List.contains_iff_exists_mem_beq]
  constructor
  · rintro ((((h | h) | h) | h) | h)
    · exact Or.inl (by intro hc; omega)
    · exact Or.inl (by intro hc; omega)
    · exact Or.inl (by intro hc; omega)
    · exact Or.inl (by intro hc; omega)
    · obtain ⟨a, ha, hb⟩ := h
      exact Or.inr (by simpa [beq_iff_eq] using (beq_iff_eq.mp hb ▸ ha))
  · rintro (h | h)
    · by_cases h1 : newHead.x < 0
      · exact Or.inl (Or.inl (Or.inl (Or.inl h1)))
      · by_cases h2 : newHead.y < 0
        · exact Or.inl (Or.inl (Or.inl (Or.inr h2)))
        · by_cases h3 : (30 : Int) ≤ newHead.x
          · exact Or.inl (Or.inl (Or.inr h3))
          · exact Or.inl (Or.inr (by omega))
    · exact Or.inr ⟨newHead, h, beq_iff_eq.mpr rfl⟩

/-- Claim C2: on a movement tick, a Game-Over event is emitted if and
only if the stepped head position lies outside [0,30) × [0,30) or equals
some pre-move segment position; the head's own pre-move position takes
part only through the general membership check over the snapshot. -/
theorem C2_game_over_iff (w w' : World) (headPos : Position) (rest : List Position)
    (hw : w.segments = headPos :: rest) (hm : snakeMovementSys w = some w') :
    w'.gameOverEvents = w.gameOverEvents + 1 ↔
      (¬ (0 ≤ (stepPosition w.direction headPos).x ∧
          (stepPosition w.direction headPos).x < ARENA_WIDTH ∧
          0 ≤ (stepPosition w.direction headPos).y ∧
          (stepPosition w.direction headPos).y < ARENA_HEIGHT) ∨
        stepPosition w.direction headPos ∈ w.segments) := by
  rw [snakeMovementSys_cons w headPos rest hw] at hm
  injection hm with hm
  subst hm
  rw [hw, ← collides_iff (stepPosition w.direction headPos) (headPos :: rest)]
  by_cases hhit : collides (stepPosition w.direction headPos) (headPos :: rest) = true
  · simp [hhit]
  · simp [hhit]

/-- Claim C2 witness: the movement step on `exampleWorld`, whose stepped
head (4, 3) stays inside the arena and misses every snapshot position. -/
theorem C2_game_over_iff_witness :
    exampleWorld.segments = { x := 3, y := 3 } :: [{ x := 3, y := 2 }] ∧
    snakeMovementSys exampleWorld = some exampleWorldMoved ∧
    (exampleWorldMoved.gameOverEvents = exampleWorld.gameOverEvents + 1 ↔
      (¬ (0 ≤ (stepPosition exampleWorld.direction { x := 3, y := 3 }).x ∧
          (stepPosition exampleWorld.direction { x := 3, y := 3 }).x < ARENA_WIDTH ∧
          0 ≤ (stepPosition exampleWorld.direction { x := 3, y := 3 }).y ∧
          (stepPosition exampleWorld.direction { x := 3, y := 3 }).y < ARENA_HEIGHT) ∨
        stepPosition exampleWorld.direction { x := 3, y := 3 } ∈ exampleWorld.segments)) :=
  ⟨rfl, by decide,
    C2_game_over_iff exampleWorld exampleWorldMoved { x := 3, y := 3 } [{ x := 3, y := 2 }]
      rfl (by decide)⟩

/-- Claim C3: the input step never turns the head to the opposite of its
current direction: when the requested direction is the opposite, the
direction stays unchanged, and in every other case the requested
direction is applied unmodified (the reversal check is the only filter). -/
theorem C3_no_reversal (keys : KeyboardInput) (current : Direction) :
    snakeMovementInput keys current ≠ current.opposite ∧
    (requestedDirection keys current = current.opposite →
      snakeMovementInput keys current = current) ∧
    (requestedDirection keys current ≠ current.opposite →
      snakeMovementInput keys current = requestedDirection keys current) := by
  rcases keys with ⟨l, r, d, u⟩
  cases l <;> cases r <;> cases d <;> cases u <;> cases current <;>
    simp [snakeMovementInput, requestedDirection, Direction.opposite]

/-- Claim C9: the requested direction is chosen first-match-wins with
priority Left, Right, Down, Up over the held-key snapshot, falling back
to the current direction when no directional key is held, and the input
step either applies that one direction or keeps the current one. -/
theorem C9_input_priority (keys : KeyboardInput) (current : Direction) :
    (keys.left = true → requestedDirection keys current = Direction.Left) ∧
    (keys.left = false → keys.right = true →
      requestedDirection keys current = Direction.Right) ∧
    (keys.left = false → keys.right = false → keys.down = true →
      requestedDirection keys current = Direction.Down) ∧
    (keys.left = false → keys.right = false → keys.down = false → keys.up = true →
      requestedDirection keys current = Direction.Up) ∧
    (keys.left = false → keys.right = false → keys.down = false → keys.up = false →
      requestedDirection keys current = current ∧
      snakeMovementInput keys current = current) ∧
    (snakeMovementInput keys current = requestedDirection keys current ∨
      snakeMovementInput keys current = current) := by
  rcases keys with ⟨l, r, d, u⟩
  cases l <;> cases r <;> cases d <;> cases u <;> cases current <;>
    simp [snakeMovementInput, requestedDirection, Direction.opposite]

/-- Claim C10: the movement step leaves the food list, the head's
direction, the number of segments and the pending growth events
unchanged: it only rewrites segment positions and the tail record. -/
theorem C10_movement_frame_effect (w : World) (h : w.segments ≠ []) :
    ∃ w', snakeMovementSys w = some w' ∧
      w'.foods = w.foods ∧ w'.direction = w.direction ∧
      w'.segments.length = w.segments.length ∧
      w'.growthEvents = w.growthEvents := by
  obtain ⟨headPos, rest, hw⟩ := List.exists_cons_of_ne_nil h
  refine ⟨_, snakeMovementSys_cons w headPos rest hw, rfl, rfl, ?_, rfl⟩
  simp [hw]

/-- Claim C10 witness: the movement step on `exampleWorld`. -/
theorem C10_movement_frame_effect_witness :
    exampleWorld.segments ≠ [] ∧
    ∃ w', snakeMovementSys exampleWorld = some w' ∧
      w'.foods = exampleWorld.foods ∧ w'.direction = exampleWorld.direction ∧
      w'.segments.length = exampleWorld.segments.length ∧
      w'.growthEvents = exampleWorld.growthEvents :=
  ⟨by decide, C10_movement_frame_effect exampleWorld (by decide)⟩

/-- The movement step records the pre-move tail position in
`LastTailPosition`. -/
theorem snakeMovementSys_lastTail (w w' : World) (hm : snakeMovementSys w = some w') :
    w'.lastTail = w.segments.getLast? := by
  rcases hseg : w.segments with _ | ⟨headPos, rest⟩
  · unfold snakeMovementSys at hm
    rw [hseg] at hm
    simp at hm
  · rw [snakeMovementSys_cons w headPos rest hseg] at hm
    injection hm with hm
    subst hm
    rw [List.getLast?_eq_getLast _ (by simp)]

/-- The eating step changes neither the tail record nor the segments. -/
theorem snakeEatingSys_preserves (w w' : World) (he : snakeEatingSys w = some w') :
    w'.lastTail = w.lastTail ∧ w'.segments = w.segments := by
  rcases hseg : w.segments with _ | ⟨headPos, rest⟩
  · unfold snakeEatingSys at he
    rw [hseg] at he
    simp at he
  · rw [snakeEatingSys_cons w headPos rest hseg] at he
    injection he with he
    subst he
    exact ⟨rfl, hseg⟩

/-- The growth step with at least one pending event and a recorded tail
appends one segment there and consumes one event. -/
theorem snakeGrowthSys_grow (w : World) (p : Position)
    (hp : w.lastTail = some p) (hg : 1 ≤ w.growthEvents) :
    snakeGrowthSys w = some { w with
      segments := w.segments ++ [p]
      growthEvents := w.growthEvents - 1 } := by
  simp [snakeGrowthSys, hp, hg]

/-- The growth step with no pending event does nothing. -/
theorem snakeGrowthSys_noop (w : World) (hg : w.growthEvents = 0) :
    snakeGrowthSys w = some w := by
  simp [snakeGrowthSys, hg]

/-- Claim C4: after a movement step and the eating step of the same
tick, the growth step appends exactly one segment at that tick's
recorded pre-move tail position whenever at least one Growth event is
pending (consuming exactly one event, however many fired), and appends
nothing when none is pending. -/
theorem C4_growth_appends_one (w w₁ w₂ : World)
    (hm : snakeMovementSys w = some w₁) (he : snakeEatingSys w₁ = some w₂) :
    (1 ≤ w₂.growthEvents →
      ∃ w₃ tail, w.segments.getLast? = some tail ∧
        snakeGrowthSys w₂ = some w₃ ∧
        w₃.segments = w₂.segments ++ [tail] ∧
        w₃.growthEvents = w₂.growthEvents - 1) ∧
    (w₂.growthEvents = 0 → snakeGrowthSys w₂ = some w₂) := by
  have hlt₁ := snakeMovementSys_lastTail w w₁ hm
  obtain ⟨hlt₂, -⟩ := snakeEatingSys_preserves w₁ w₂ he
  have hne : w.segments ≠ [] := by
    rcases hseg : w.segments with _ | ⟨headPos, rest⟩
    · unfold snakeMovementSys at hm
      rw [hseg] at hm
      simp at hm
    · simp
  constructor
  · intro hg
    have hp : w₂.lastTail = some (w.segments.getLast hne) := by
      rw [hlt₂, hlt₁, List.getLast?_eq_getLast _ hne]
    refine ⟨{ w₂ with
        segments := w₂.segments ++ [w.segments.getLast hne]
        growthEvents := w₂.growthEvents - 1 },
      w.segments.getLast hne, List.getLast?_eq_getLast _ hne,
      snakeGrowthSys_grow w₂ _ hp hg, rfl, rfl⟩
  · intro hg
    exact snakeGrowthSys_noop w₂ hg

/-- Claim C4 witness: `eatWorld` moves, eats the food at (4, 3), and the
growth step appends one segment at the recorded pre-move tail (3, 2). -/
theorem C4_growth_appends_one_witness :
    snakeMovementSys eatWorld = some eatWorldMoved ∧
    snakeEatingSys eatWorldMoved = some eatWorldEaten ∧
    ((1 ≤ eatWorldEaten.growthEvents →
      ∃ w₃ tail, eatWorld.segments.getLast? = some tail ∧
        snakeGrowthSys eatWorldEaten = some w₃ ∧
        w₃.segments = eatWorldEaten.segments ++ [tail] ∧
        w₃.growthEvents = eatWorldEaten.growthEvents - 1) ∧
    (eatWorldEaten.growthEvents = 0 → snakeGrowthSys eatWorldEaten = some eatWorldEaten)) :=
  ⟨by decide, by decide,
    C4_growth_appends_one eatWorld eatWorldMoved eatWorldEaten (by decide) (by decide)⟩

/-- Claim C5: observing a Game-Over event destroys every Food and every
SnakeSegment entity and immediately re-runs the initial spawn: the world
is left with exactly the two-segment spawn, head at (3, 3) facing Right
and body at (3, 2), and no surviving food. -/
theorem C5_game_over_resets (w : World) (h : 1 ≤ w.gameOverEvents) :
    (gameOverSys w).foods = [] ∧
    (gameOverSys w).segments = [{ x := 3, y := 3 }, { x := 3, y := 2 }] ∧
    (gameOverSys w).direction = Direction.Right := by
  simp [gameOverSys, spawnSnake, h]

/-- Claim C5 witness: the reset on `crashedWorld`, which carries a
pending game-over event, a three-segment snake and one food entity. -/
theorem C5_game_over_resets_witness :
    1 ≤ crashedWorld.gameOverEvents ∧
    ((gameOverSys crashedWorld).foods = [] ∧
     (gameOverSys crashedWorld).segments = [{ x := 3, y := 3 }, { x := 3, y := 2 }] ∧
     (gameOverSys crashedWorld).direction = Direction.Right) :=
  ⟨by decide, C5_game_over_resets crashedWorld (by decide)⟩

/-- Claim C6: a pending Growth event with no recorded LastTailPosition
makes the growth step fail loudly (the `unwrap` panic, modelled as
`none`) instead of silently doing nothing. -/
theorem C6_growth_fails_loudly (w : World)
    (hg : 1 ≤ w.growthEvents) (hp : w.lastTail = none) :
    snakeGrowthSys w = none := by
  simp [snakeGrowthSys, hg, hp]

/-- Claim C6 witness: the growth step panics on `staleWorld`. -/
theorem C6_growth_fails_loudly_witness :
    1 ≤ staleWorld.growthEvents ∧ staleWorld.lastTail = none ∧
    snakeGrowthSys staleWorld = none :=
  ⟨by decide, by decide, C6_growth_fails_loudly staleWorld (by decide) (by decide)⟩

/-- Claim C7 counterexample: the declared constraints admit a frame order
that runs the game-over check before eating and growth, so the execution
order is neither total (the canonical chain is also admissible, giving
two distinct valid orders) nor does growth always complete before the
game-over check consumes its event. -/
theorem C7_order_counterexample :
    validOrder [Sys.movementInputSys, Sys.movementSys, Sys.gameOverCheckSys,
      Sys.eatingSys, Sys.growthSys] ∧
    validOrder [Sys.movementInputSys, Sys.movementSys, Sys.eatingSys,
      Sys.growthSys, Sys.gameOverCheckSys] ∧
    ¬ schedulesBefore [Sys.movementInputSys, Sys.movementSys, Sys.gameOverCheckSys,
      Sys.eatingSys, Sys.growthSys] Sys.growthSys Sys.gameOverCheckSys := by
  refine ⟨by decide, by decide, by decide⟩

/-- Claim C7 amended: within every frame order the scheduler may choose,
input handling runs before movement, movement before eating, eating
before growth, and movement before the game-over check (hence input also
precedes eating, growth and the game-over check); the relative order of
eating and growth against the game-over check is left unconstrained. -/
theorem C7_order_amended (l : List Sys) (h : validOrder l) :
    schedulesBefore l Sys.movementInputSys Sys.movementSys ∧
    schedulesBefore l Sys.movementSys Sys.eatingSys ∧
    schedulesBefore l Sys.eatingSys Sys.growthSys ∧
    schedulesBefore l Sys.movementSys Sys.gameOverCheckSys ∧
    schedulesBefore l Sys.movementInputSys Sys.growthSys ∧
    schedulesBefore l Sys.movementInputSys Sys.gameOverCheckSys := by
  obtain ⟨-, hc⟩ := h
  have h1 := hc Sys.movementInputSys Sys.movementSys rfl
  have h2 := hc Sys.movementSys Sys.eatingSys rfl
  have h3 := hc Sys.eatingSys Sys.growthSys rfl
  have h4 := hc Sys.movementSys Sys.gameOverCheckSys rfl
  exact ⟨h1, h2, h3, h4,
    Nat.lt_trans h1 (Nat.lt_trans h2 h3), Nat.lt_trans h1 h4⟩

/-- Claim C7 amended witness: the chained order written in `main`. -/
theorem C7_order_amended_witness :
    validOrder [Sys.movementInputSys, Sys.movementSys, Sys.eatingSys,
      Sys.growthSys, Sys.gameOverCheckSys] ∧
    (schedulesBefore [Sys.movementInputSys, Sys.movementSys, Sys.eatingSys,
        Sys.growthSys, Sys.gameOverCheckSys] Sys.movementInputSys Sys.movementSys ∧
     schedulesBefore [Sys.movementInputSys, Sys.movementSys, Sys.eatingSys,
        Sys.growthSys, Sys.gameOverCheckSys] Sys.movementSys Sys.eatingSys ∧
     schedulesBefore [Sys.movementInputSys, Sys.movementSys, Sys.eatingSys,
        Sys.growthSys, Sys.gameOverCheckSys] Sys.eatingSys Sys.growthSys ∧
     schedulesBefore [Sys.movementInputSys, Sys.movementSys, Sys.eatingSys,
        Sys.growthSys, Sys.gameOverCheckSys] Sys.movementSys Sys.gameOverCheckSys ∧
     schedulesBefore [Sys.movementInputSys, Sys.movementSys, Sys.eatingSys,
        Sys.growthSys, Sys.gameOverCheckSys] Sys.movementInputSys Sys.growthSys ∧
     schedulesBefore [Sys.movementInputSys, Sys.movementSys, Sys.eatingSys,
        Sys.growthSys, Sys.gameOverCheckSys] Sys.movementInputSys Sys.gameOverCheckSys) :=
  ⟨by decide, C7_order_amended _ (by decide)⟩

/-- Claim C8: the food spawner creates exactly one food entity per slow
tick, at a position depending only on the two random draws (so it is
independent of existing food and segments), with both coordinates in
[0, 30); each cell value k is hit exactly when the draw falls in
[k/30, (k+1)/30), an interval of equal width 1/30 for every cell, which
is the uniform distribution over the grid extent for uniform draws. -/
theorem C8_food_spawn (r1 r2 : ℚ)
    (h1 : 0 ≤ r1) (h2 : r1 < 1) (h3 : 0 ≤ r2) (h4 : r2 < 1) :
    ∃ p : Position,
      (∀ w : World, (foodSpawnerSys r1 r2 w).foods = w.foods ++ [p] ∧
        (foodSpawnerSys r1 r2 w).foods.length = w.foods.length + 1 ∧
        (foodSpawnerSys r1 r2 w).segments = w.segments) ∧
      0 ≤ p.x ∧ p.x < ARENA_WIDTH ∧ 0 ≤ p.y ∧ p.y < ARENA_HEIGHT ∧
      (∀ k : Int, p.x = k ↔ ((k : ℚ) / 30 ≤ r1 ∧ r1 < ((k : ℚ) + 1) / 30)) ∧
      (∀ k : Int, p.y = k ↔ ((k : ℚ) / 30 ≤ r2 ∧ r2 < ((k : ℚ) + 1) / 30)) := by
  have key : ∀ r : ℚ, 0 ≤ r → r < 1 →
      (0 ≤ ⌊r * 30⌋ ∧ ⌊r * 30⌋ < 30 ∧
        ∀ k : Int, ⌊r * 30⌋ = k ↔ ((k : ℚ) / 30 ≤ r ∧ r < ((k : ℚ) + 1) / 30)) := by
    intro r hr0 hr1
    refine ⟨Int.floor_nonneg.mpr (by positivity), ?_, ?_⟩
    · exact Int.floor_lt.mpr (by push_cast; nlinarith)
    · intro k
      rw [Int.floor_eq_iff]
      constructor
      · rintro ⟨ha, hb⟩
        constructor
        · rw [div_le_iff₀ (by norm_num : (0 : ℚ) < 30)]
          exact ha
        · rw [lt_div_iff₀ (by norm_num : (0 : ℚ) < 30)]
          linarith
      · rintro ⟨ha, hb⟩
        constructor
        · rw [div_le_iff₀ (by norm_num : (0 : ℚ) < 30)] at ha
          exact ha
        · rw [lt_div_iff₀ (by norm_num : (0 : ℚ) < 30)] at hb
          linarith
  obtain ⟨hx0, hx1, hxk⟩ := key r1 h1 h2
  obtain ⟨hy0, hy1, hyk⟩ := key r2 h3 h4
  exact ⟨{ x := ⌊r1 * 30⌋, y := ⌊r2 * 30⌋ },
    fun w => ⟨rfl, by simp [foodSpawnerSys], rfl⟩,
    hx0, hx1, hy0, hy1, hxk, hyk⟩

/-- Claim C8 witness: the spawner on draws 1/3 and 29/30. -/
theorem C8_food_spawn_witness :
    (0 : ℚ) ≤ 1 / 3 ∧ (1 / 3 : ℚ) < 1 ∧ (0 : ℚ) ≤ 29 / 30 ∧ (29 / 30 : ℚ) < 1 ∧
    (∃ p : Position,
      (∀ w : World, (foodSpawnerSys (1 / 3) (29 / 30) w).foods = w.foods ++ [p] ∧
        (foodSpawnerSys (1 / 3) (29 / 30) w).foods.length = w.foods.length + 1 ∧
        (foodSpawnerSys (1 / 3) (29 / 30) w).segments = w.segments) ∧
      0 ≤ p.x ∧ p.x < ARENA_WIDTH ∧ 0 ≤ p.y ∧ p.y < ARENA_HEIGHT ∧
      (∀ k : Int, p.x = k ↔ ((k : ℚ) / 30 ≤ 1 / 3 ∧ (1 / 3 : ℚ) < ((k : ℚ) + 1) / 30)) ∧
      (∀ k : Int, p.y = k ↔ ((k : ℚ) / 30 ≤ 29 / 30 ∧ (29 / 30 : ℚ) < ((k : ℚ) + 1) / 30))) :=
  ⟨by norm_num, by norm_num, by norm_num, by norm_num,
    C8_food_spawn (1 / 3) (29 / 30) (by norm_num) (by norm_num) (by norm_num) (by norm_num)⟩

end Snake
